import Mathlib

/-!
Verification development for the grid-sampling rank-tracking engine and the
surrounding article-generation utilities (`src/app.py`).

The repository's `src/app.py` contains the article-generation utilities
(`load_templates`, `call_openai_chat`, `generate_content_with_post_checks`),
which are embedded here directly from the source.  The grid-sampling engine
(`generateGrid`, `fetchNearby`, `rankAndLocate`, `summarize`, `scan`) is not
present under `src/`; those components are modelled from the specification,
as marked on each definition.
-/

namespace ArticleGen

/-! ### Data model (modelled from the spec, §3) -/

/-- Modelled from the spec: one returned business candidate.
`rating` is a rational (0 if absent / non-numeric), `reviewCount` a natural
number (0 if absent).  The float rating of the provider is modelled as `ℚ`. -/
structure SearchResultRecord where
  placeId : String
  name : String
  rating : ℚ
  reviewCount : ℕ
deriving DecidableEq, Repr

/-- Modelled from the spec: an immutable latitude/longitude pair.  The float
coordinates are modelled as `ℚ`. -/
structure Coordinate where
  latitude : ℚ
  longitude : ℚ
deriving DecidableEq, Repr

/-! ### RankExtractor ordering (modelled from the spec, §4.3) -/

/-- Modelled from the spec: the deterministic total preorder used for ranking —
descending by rating, then descending by review count, then ascending by name
(lexicographic, case-sensitive on the raw string). -/
def recLE (a b : SearchResultRecord) : Prop :=
  b.rating < a.rating ∨
    (a.rating = b.rating ∧
      (b.reviewCount < a.reviewCount ∨
        (a.reviewCount = b.reviewCount ∧ a.name.data ≤ b.name.data)))

instance : DecidableRel recLE := fun a b => by
  unfold recLE; infer_instance

instance : IsTotal SearchResultRecord recLE := by
  constructor
  intro a b
  rcases lt_trichotomy a.rating b.rating with h | h | h
  · exact Or.inr (Or.inl h)
  · rcases lt_trichotomy a.reviewCount b.reviewCount with h2 | h2 | h2
    · exact Or.inr (Or.inr ⟨h.symm, Or.inl h2⟩)
    · rcases le_total a.name.data b.name.data with h3 | h3
      · exact Or.inl (Or.inr ⟨h, Or.inr ⟨h2, h3⟩⟩)
      · exact Or.inr (Or.inr ⟨h.symm, Or.inr ⟨h2.symm, h3⟩⟩)
    · exact Or.inl (Or.inr ⟨h, Or.inl h2⟩)
  · exact Or.inl (Or.inl h)

instance : IsTrans SearchResultRecord recLE := by
  constructor
  intro a b c hab hbc
  rcases hab with hab | ⟨hab, hab2⟩
  · rcases hbc with hbc | ⟨hbc, _⟩
    · exact Or.inl (lt_trans hbc hab)
    · exact Or.inl (hbc ▸ hab)
  · rcases hbc with hbc | ⟨hbc, hbc2⟩
    · exact Or.inl (hab ▸ hbc)
    · refine Or.inr ⟨hab.trans hbc, ?_⟩
      rcases hab2 with hab2 | ⟨hab2, hab3⟩
      · rcases hbc2 with hbc2 | ⟨hbc2, _⟩
        · exact Or.inl (lt_trans hbc2 hab2)
        · exact Or.inl (hbc2 ▸ hab2)
      · rcases hbc2 with hbc2 | ⟨hbc2, hbc3⟩
        · exact Or.inl (hab2 ▸ hbc2)
        · exact Or.inr ⟨hab2.trans hbc2, le_trans hab3 hbc3⟩

/-- Modelled from the spec: the deterministic sort of a page of records
(a stable sort by the total preorder `recLE`, matching a stable sort on the
key (-rating, -reviews, name)). -/
def sortRecords (records : List SearchResultRecord) : List SearchResultRecord :=
  List.insertionSort recLE records

/-! ### Case-insensitive substring matching (modelled from the spec, §4.3) -/

/-- Does `pat` start `l` (character-by-character equality)? -/
def startsWithChars : List Char → List Char → Bool
  | [], _ => true
  | _ :: _, [] => false
  | p :: ps, c :: cs => p == c && startsWithChars ps cs

/-- Does `pat` occur as a contiguous run inside `l`?  (An empty pattern occurs
in every list, matching Python's `in` on strings.) -/
def occursIn (pat : List Char) : List Char → Bool
  | [] => startsWithChars pat []
  | c :: cs => startsWithChars pat (c :: cs) || occursIn pat cs

/-- ASCII lowering of a character list, matching `str.lower` on the ASCII
names the provider returns. -/
def lowerChars (l : List Char) : List Char :=
  l.map Char.toLower

/-- Modelled from the spec: case-insensitive substring test, lowering both the
record name and the target substring. -/
def containsCI (name sub : String) : Bool :=
  occursIn (lowerChars sub.data) (lowerChars name.data)

/-- Case-sensitive substring test (Python's `pat in msg` on raw strings). -/
def containsSub (msg pat : String) : Bool :=
  occursIn pat.data msg.data

/-! ### RankExtractor (modelled from the spec, §4.3) -/

/-- The result triple of `rankAndLocate`. -/
structure RankResult where
  targetRank : Option ℕ
  topCompetitors : List SearchResultRecord
  targetRecord : Option SearchResultRecord
deriving DecidableEq, Repr

/-- Scan a list left-to-right with a running counter `k`, returning the
counter value and element at the first element satisfying `p`. -/
def locFirst (p : α → Bool) : List α → ℕ → Option (ℕ × α)
  | [], _ => none
  | x :: xs, k => if p x then some (k, x) else locFirst p xs (k + 1)

/-- Modelled from the spec: sort the records by `recLE`; `topCompetitors` is
the first 3 of the sorted list; the target is the first sorted record whose
name contains `targetNameSubstring` case-insensitively, reported with its
1-based position. -/
def rankAndLocate (records : List SearchResultRecord)
    (targetNameSubstring : String) : RankResult :=
  let sorted := sortRecords records
  match locFirst (fun r => containsCI r.name targetNameSubstring) sorted 1 with
  | some (i, r) => ⟨some i, sorted.take 3, some r⟩
  | none => ⟨none, sorted.take 3, none⟩

/-! ### Helper lemmas about `locFirst` -/

/-! ### Claims about the RankExtractor -/

/-- A two-element all-tied record list used to witness the tie-break order. -/
def tieRecords : List SearchResultRecord :=
  [⟨"", "B", 0, 0⟩, ⟨"", "A", 0, 0⟩]

/-- The four-business page of the spec's end-to-end scenario. -/
def demoRecords : List SearchResultRecord :=
  [⟨"", "Acme Clinic", 5, 100⟩, ⟨"", "Delta Clinic", 3, 1⟩,
   ⟨"", "Gamma Clinic", 4, 10⟩, ⟨"", "Beta Clinic", 5, 50⟩]

/-! ### GridGenerator (modelled from the spec, §4.1) -/

/-- Evenly spaced rationals: `n` values spanning `[lo, hi]` (`numpy.linspace`
shape: `n = 0` gives no values, `n = 1` gives just `lo`). -/
def linspace (lo hi : ℚ) (n : ℕ) : List ℚ :=
  if n ≤ 1 then List.replicate n lo
  else (List.range n).map fun i : ℕ => lo + (hi - lo) * (i : ℚ) / ((n : ℚ) - 1)

/-- Modelled from the spec: turn a centre coordinate and radius into a
deterministic N×N list of sample coordinates, row-major (all longitudes for
the first latitude, then the next latitude, …).  The latitude extent is
`radiusMiles / 69`; the longitude extent divides additionally by the cosine
of the centre latitude, which is not representable over `ℚ` and is therefore
passed as the abstract parameter `cosCenterLat` (its value does not affect
the grid's size or shape).  `gridSize < 1` returns an empty list. -/
def generateGrid (centerLat centerLon radiusMiles cosCenterLat : ℚ)
    (gridSize : ℤ) : List Coordinate :=
  if gridSize < 1 then []
  else
    let latExtent := radiusMiles / 69
    let lonExtent := radiusMiles / (69 * cosCenterLat)
    let n := gridSize.toNat
    let lats := linspace (centerLat - latExtent) (centerLat + latExtent) n
    let lons := linspace (centerLon - lonExtent) (centerLon + lonExtent) n
    lats.flatMap fun la => lons.map fun lo => ⟨la, lo⟩

/-! ### CoverageAggregator (modelled from the spec, §4.5) -/

/-- Modelled from the spec: the error kinds of the error-handling design. -/
inductive ErrorKind where
  | InvalidInput
  | TransportError
  | RateLimited
  | Cancelled
deriving DecidableEq, Repr

/-- Modelled from the spec: the result of processing one grid point. -/
structure RankedOutcome where
  coordinate : Coordinate
  targetRank : Option ℕ
  topCompetitors : List SearchResultRecord
  targetRecord : Option SearchResultRecord
  error : Option ErrorKind
deriving DecidableEq, Repr

/-- Modelled from the spec: the aggregate over all outcomes of one scan. -/
structure CoverageSummary where
  totalPoints : ℕ
  foundCount : ℕ
  top3Count : ℕ
  top10Count : ℕ
  averageRankWhereFound : Option ℚ
deriving DecidableEq, Repr

/-- The list of non-null target ranks, in outcome order. -/
def foundRanks (outcomes : List RankedOutcome) : List ℕ :=
  outcomes.filterMap (fun o => o.targetRank)

/-- Modelled from the spec: reduce the per-point outcomes into the coverage
summary. -/
def summarize (outcomes : List RankedOutcome) : CoverageSummary :=
  { totalPoints := outcomes.length
    foundCount := (foundRanks outcomes).length
    top3Count := ((foundRanks outcomes).filter (fun k => k ≤ 3)).length
    top10Count := ((foundRanks outcomes).filter (fun k => k ≤ 10)).length
    averageRankWhereFound :=
      if (foundRanks outcomes).length = 0 then none
      else some (((foundRanks outcomes).map (fun k : ℕ => (k : ℚ))).sum /
        (foundRanks outcomes).length) }

/-- An all-not-found outcome used to witness the degenerate summary. -/
def notFoundOutcome : RankedOutcome :=
  ⟨⟨30, -97⟩, none, [], none, some ErrorKind.TransportError⟩

/-! ### PlacesQueryClient (modelled from the spec, §4.2) -/

/-- Modelled from the spec: one provider response page — a list of result
records and whether a continuation token was returned. -/
structure Page where
  records : List SearchResultRecord
  nextToken : Bool
deriving Repr

/-- Modelled from the spec: the client requests at most 3 pages per
coordinate. -/
def maxPages : ℕ := 3

/-- Modelled from the spec: the fixed delay (seconds) before a continuation
request becomes valid. -/
def pageDelaySeconds : ℕ := 2

/-- The observable outcome of one coordinate's pagination sequence:
the accumulated records, the surfaced error (if any), the number of page
requests issued, and the inter-page delays performed (in seconds). -/
structure FetchResult where
  records : List SearchResultRecord
  error : Option ErrorKind
  requests : ℕ
  delays : List ℕ
deriving Repr

/-- Modelled from the spec: the pagination loop.  `pageNo` is the next page
to request (1-based), `remaining` the number of page requests still allowed.
A provider failure aborts the loop keeping the records gathered so far and
recording the error; a page without a continuation token stops the loop. -/
def fetchFrom (provider : ℕ → Except ErrorKind Page)
    (acc : List SearchResultRecord) (requests : ℕ) (delays : List ℕ) :
    ℕ → ℕ → FetchResult
  | _, 0 => ⟨acc, none, requests, delays⟩
  | pageNo, remaining + 1 =>
    match provider pageNo with
    | .error e => ⟨acc, some e, requests + 1, delays⟩
    | .ok page =>
      if page.nextToken ∧ remaining ≠ 0 then
        fetchFrom provider (acc ++ page.records) (requests + 1)
          (delays ++ [pageDelaySeconds]) (pageNo + 1) remaining
      else ⟨acc ++ page.records, none, requests + 1, delays⟩

/-- Modelled from the spec: one paginated query sequence for a single sample
coordinate (the coordinate/keyword/API-key inputs are folded into the
abstract `provider`). -/
def fetchNearby (provider : ℕ → Except ErrorKind Page) : FetchResult :=
  fetchFrom provider [] 0 [] 1 maxPages

/-- A provider stub returning a continuation token on page 1 and none on
page 2 (the spec's pagination scenario). -/
def stubTokenOnPage1 : ℕ → Except ErrorKind Page :=
  fun n => .ok ⟨[], n == 1⟩

/-! ### GridScanner (modelled from the spec, §4.4 and §7) -/

/-- Modelled from the spec: orchestrate the grid scan.  Invalid input (a
non-positive radius) fails fast with `InvalidInput` before any provider call;
otherwise every grid point independently fetches and ranks, and a point-level
provider failure is recorded in that point's outcome only. -/
def scan (centerLat centerLon radiusMiles cosCenterLat : ℚ) (gridSize : ℤ)
    (targetNameSubstring : String)
    (providerAt : Coordinate → ℕ → Except ErrorKind Page) :
    Except ErrorKind (List RankedOutcome) :=
  if radiusMiles ≤ 0 then .error .InvalidInput
  else .ok <|
    (generateGrid centerLat centerLon radiusMiles cosCenterLat gridSize).map
      fun c =>
        let fr := fetchNearby (providerAt c)
        match fr.error with
        | some e => ⟨c, none, [], none, some e⟩
        | none =>
          let rr := rankAndLocate fr.records targetNameSubstring
          ⟨c, rr.targetRank, rr.topCompetitors, rr.targetRecord, none⟩

/-- A provider stub whose page 1 returns one record with a token and whose
page 2 fails with a transport error. -/
def stubFailPage2 : ℕ → Except ErrorKind Page :=
  fun n => if n == 1 then .ok ⟨demoRecords, true⟩ else .error .TransportError

/-! ### `load_templates` (embedded from `src/app.py`, lines 38–50) -/

/-- A JSON value as produced by `json.load`. -/
inductive Json where
  | null
  | bool (b : Bool)
  | num (n : ℤ)
  | str (s : String)
  | arr (items : List Json)
  | obj (fields : List (String × Json))

/-- The possible outcomes of reading and parsing `templates.json`:
the file does not exist, `open`/`json.load` raised, or parsing succeeded. -/
inductive TemplateFileRead where
  | missing
  | unreadable
  | parsed (data : Json)

/-- Embedded from `src/app.py` (`load_templates`): if the parsed data is a
dict containing the key `"templates"`, return `data["templates"]`; if it is a
list, return it; in every other case (missing file, unreadable file, other
JSON shape, dict without the key) return the empty list.  A Python list is
modelled as `Json.arr`; the returned value is whatever JSON value the lookup
produced. -/
def load_templates : TemplateFileRead → Json
  | .missing => .arr []
  | .unreadable => .arr []
  | .parsed (.obj fields) =>
    match fields.lookup "templates" with
    | some v => v
    | none => .arr []
  | .parsed (.arr items) => .arr items
  | .parsed _ => .arr []

/-! ### `call_openai_chat` (embedded from `src/app.py`, lines 146–192) -/

/-- What one API attempt does: succeed with content, raise `RateLimitError`,
or raise an `OpenAIError` carrying a message string. -/
inductive ApiAttemptResult where
  | success (content : String)
  | rateLimitError
  | apiError (msg : String)
deriving DecidableEq, Repr

/-- The observable behaviour of one `call_openai_chat` run: the returned
string, the number of API attempts actually made, and the sleeps performed
(in seconds, in order). -/
structure CallTrace where
  result : String
  attempts : ℕ
  sleeps : List ℕ
deriving DecidableEq, Repr

/-- Embedded from `src/app.py` (`call_openai_chat`'s `for attempt in
range(max_retries)` loop): a successful attempt returns the stripped content;
`RateLimitError` sleeps `2 ** attempt` seconds and retries; an `OpenAIError`
whose message contains `"insufficient_quota"` returns `""` at once; any other
`OpenAIError` returns `""` on the last attempt and otherwise retries without
sleeping; falling off the loop returns `""`. -/
def callLoop (api : ℕ → ApiAttemptResult) (max_retries attempt : ℕ)
    (sleeps : List ℕ) : CallTrace :=
  if _h : attempt < max_retries then
    match api attempt with
    | .success content => ⟨content.trim, attempt + 1, sleeps⟩
    | .rateLimitError =>
      callLoop api max_retries (attempt + 1) (sleeps ++ [2 ^ attempt])
    | .apiError msg =>
      if containsSub msg "insufficient_quota" then ⟨"", attempt + 1, sleeps⟩
      else if attempt = max_retries - 1 then ⟨"", attempt + 1, sleeps⟩
      else callLoop api max_retries (attempt + 1) sleeps
  else ⟨"", attempt, sleeps⟩
termination_by max_retries - attempt
decreasing_by all_goals omega

/-- Embedded from `src/app.py`: `call_openai_chat` starts the attempt loop
at attempt 0 with no sleeps performed. -/
def call_openai_chat (api : ℕ → ApiAttemptResult) (max_retries : ℕ) :
    CallTrace :=
  callLoop api max_retries 0 []

/-- An attempt oracle that rate-limits twice and then keeps failing with a
non-quota error. -/
def stubApiAllFail : ℕ → ApiAttemptResult :=
  fun n => if n < 2 then .rateLimitError else .apiError "server error"

/-! ### `generate_content_with_post_checks` (embedded from `src/app.py`,
lines 195–245) -/

/-- Embedded from `src/app.py` (the `while tries < max_tries_for_reading`
loop of `generate_content_with_post_checks`): while the Flesch reading ease
of the current content is below the target, call the refinement API; an
empty refinement result breaks out of the loop keeping the current content;
otherwise the refined text replaces the content and `tries` advances.
`remaining` counts the tries still allowed, `calls` the refinement calls
made so far; `refine n` is the result of the `n`-th refinement call. -/
def postLoop (flesch : String → ℚ) (target : ℚ) (refine : ℕ → String) :
    ℕ → ℕ → String → String × ℕ
  | 0, calls, content => (content, calls)
  | remaining + 1, calls, content =>
    if flesch content < target then
      if refine calls = "" then (content, calls + 1)
      else postLoop flesch target refine remaining (calls + 1) (refine calls)
    else (content, calls)

/-- Embedded from `src/app.py` (`generate_content_with_post_checks`): an
empty initial generation returns `""` at once; the reading-ease loop only
runs when `textstat` is importable and the target is positive; otherwise the
initial content is returned unchanged.  The pair also reports how many
refinement calls were made. -/
def generate_content_with_post_checks (textstatAvailable : Bool)
    (flesch : String → ℚ) (reading_ease_target : ℚ) (refine : ℕ → String)
    (max_tries_for_reading : ℕ) (initial : String) : String × ℕ :=
  if initial = "" then ("", 0)
  else if textstatAvailable = true ∧ 0 < reading_ease_target then
    postLoop flesch reading_ease_target refine max_tries_for_reading 0 initial
  else (initial, 0)

/-! ### Helper lemmas and claim theorems -/

theorem locFirst_eq_some (p : α → Bool) :
    ∀ (l : List α) (k i : ℕ) (x : α), locFirst p l k = some (i, x) →
      ∃ pre post, l = pre ++ x :: post ∧ (∀ y ∈ pre, p y = false) ∧
        p x = true ∧ i = k + pre.length
  | [], k, i, x => by simp [locFirst]
  | a :: l, k, i, x => by
    intro h
    by_cases hp : p a
    · simp only [locFirst, hp, if_pos] at h
      obtain ⟨hk, hx⟩ := Prod.mk.injEq .. ▸ Option.some.injEq .. ▸ h
      exact ⟨[], l, by simp [← hx], by simp, by simpa [← hx] using hp, by simp [← hk]⟩
    · simp only [locFirst, hp, if_neg, Bool.false_eq_true, not_false_iff] at h
      obtain ⟨pre, post, hl, hpre, hx, hi⟩ := locFirst_eq_some p l (k + 1) i x h
      refine ⟨a :: pre, post, by simp [hl], ?_, hx, by simp [hi]; omega⟩
      intro y hy
      rcases List.mem_cons.mp hy with rfl | hy
      · simpa using hp
      · exact hpre y hy

theorem locFirst_eq_none (p : α → Bool) :
    ∀ (l : List α) (k : ℕ), locFirst p l k = none → ∀ x ∈ l, p x = false
  | [], _, _ => by simp
  | a :: l, k, h => by
    intro x hx
    by_cases hp : p a
    · simp [locFirst, hp] at h
    · rcases List.mem_cons.mp hx with rfl | hx
      · simpa using hp
      · simp only [locFirst, hp, if_neg, Bool.false_eq_true, not_false_iff] at h
        exact locFirst_eq_none p l (k + 1) h x hx

/-- C2: `rankAndLocate` orders records by a deterministic total order:
descending by rating, then descending by review count, then ascending by name
(lexicographic, case-sensitive); for two records with equal rating and equal
review count, the one with the lexicographically smaller name comes first. -/
theorem c2_rank_order (records : List SearchResultRecord) :
    (sortRecords records).Sorted recLE ∧
    (sortRecords records).Perm records ∧
    ∀ (i j : Fin (sortRecords records).length), i < j →
      ((sortRecords records).get i).rating = ((sortRecords records).get j).rating →
      ((sortRecords records).get i).reviewCount = ((sortRecords records).get j).reviewCount →
      ((sortRecords records).get i).name.data ≤ ((sortRecords records).get j).name.data := by
  refine ⟨List.sorted_insertionSort recLE records, List.perm_insertionSort recLE records, ?_⟩
  intro i j hij h1 h2
  have h : recLE ((sortRecords records).get i) ((sortRecords records).get j) :=
    (List.sorted_insertionSort recLE records).rel_get_of_lt hij
  rcases h with h | ⟨_, h⟩
  · rw [h1] at h; exact absurd h (lt_irrefl _)
  · rcases h with h | ⟨_, h⟩
    · rw [h2] at h; exact absurd h (lt_irrefl _)
    · exact h

theorem c2_rank_order_witness :
    ((sortRecords tieRecords).get ⟨0, by decide⟩).name.data ≤
      ((sortRecords tieRecords).get ⟨1, by decide⟩).name.data :=
  (c2_rank_order tieRecords).2.2 ⟨0, by decide⟩ ⟨1, by decide⟩
    (by decide) (by decide) (by decide)

/-- C3: the target is the first record of the sorted list whose name contains
the target substring case-insensitively; `targetRank` is its 1-based position
in the full sorted list and `targetRecord` is that record; with no match both
are null. -/
theorem c3_target_resolution (records : List SearchResultRecord) (sub : String) :
    (∀ k t, (rankAndLocate records sub).targetRank = some k →
        (rankAndLocate records sub).targetRecord = some t →
        ∃ pre post, sortRecords records = pre ++ t :: post ∧
          containsCI t.name sub = true ∧
          (∀ y ∈ pre, containsCI y.name sub = false) ∧
          k = pre.length + 1) ∧
    ((rankAndLocate records sub).targetRank = none ↔
        (rankAndLocate records sub).targetRecord = none) ∧
    ((rankAndLocate records sub).targetRank = none →
        ∀ r ∈ sortRecords records, containsCI r.name sub = false) := by
  simp only [rankAndLocate]
  cases hloc : locFirst (fun r => containsCI r.name sub) (sortRecords records) 1 with
  | none =>
    refine ⟨?_, by simp, ?_⟩
    · intro k t hk; simp at hk
    · intro _; exact locFirst_eq_none _ _ _ hloc
  | some ix =>
    obtain ⟨i, r⟩ := ix
    refine ⟨?_, by simp, ?_⟩
    · intro k t hk ht
      have hk' : i = k := by simpa using hk
      have ht' : r = t := by simpa using ht
      obtain ⟨pre, post, hl, hpre, hx, hi⟩ :=
        locFirst_eq_some _ (sortRecords records) 1 i r hloc
      exact ⟨pre, post, ht' ▸ hl, ht' ▸ hx, hpre, by omega⟩
    · intro hk; simp at hk

theorem c3_target_resolution_witness :
    ∃ pre post, sortRecords demoRecords =
        pre ++ (⟨"", "Beta Clinic", 5, 50⟩ : SearchResultRecord) :: post ∧
      containsCI "Beta Clinic" "beta" = true ∧
      (∀ y ∈ pre, containsCI y.name "beta" = false) ∧
      2 = pre.length + 1 :=
  (c3_target_resolution demoRecords "beta").1 2 ⟨"", "Beta Clinic", 5, 50⟩
    (by decide) (by decide)

theorem length_linspace (lo hi : ℚ) (n : ℕ) : (linspace lo hi n).length = n := by
  unfold linspace
  split
  · exact List.length_replicate n lo
  · rw [List.length_map, List.length_range]

/-- C1: for `gridSize ≥ 1` the grid has exactly `gridSize²` coordinates; for
`gridSize < 1` (including 0) it is the empty list, with no error. -/
theorem c1_grid_count (centerLat centerLon radiusMiles cosCenterLat : ℚ)
    (gridSize : ℤ) :
    (1 ≤ gridSize →
      (generateGrid centerLat centerLon radiusMiles cosCenterLat gridSize).length =
        gridSize.toNat ^ 2) ∧
    (gridSize < 1 →
      generateGrid centerLat centerLon radiusMiles cosCenterLat gridSize = []) := by
  constructor
  · intro h1
    unfold generateGrid
    rw [if_neg (by omega)]
    rw [List.length_flatMap]
    have hlen : ∀ lo hi lo2 hi2 : ℚ,
        (List.map (List.length ∘ fun la => (linspace lo2 hi2 gridSize.toNat).map
            fun lo => Coordinate.mk la lo) (linspace lo hi gridSize.toNat)).sum =
          gridSize.toNat * gridSize.toNat := by
      intro lo hi lo2 hi2
      have : ∀ l : List ℚ,
          (List.map (List.length ∘ fun la => (linspace lo2 hi2 gridSize.toNat).map
              fun lo => Coordinate.mk la lo) l).sum = l.length * gridSize.toNat := by
        intro l
        induction l with
        | nil => simp
        | cons a l ih =>
          simp only [List.map_cons, List.sum_cons, ih, Function.comp_apply,
            List.length_map, length_linspace, List.length_cons]
          ring
      rw [this, length_linspace]
    rw [hlen, sq]
  · intro h1
    unfold generateGrid
    rw [if_pos h1]

theorem c1_grid_count_witness :
    ((1:ℤ) ≤ 2 ∧
      (generateGrid 30 (-97) 1 1 2).length = (2:ℤ).toNat ^ 2) ∧
    ((0:ℤ) < 1 ∧ generateGrid 30 (-97) 1 1 0 = []) :=
  ⟨⟨by decide, (c1_grid_count 30 (-97) 1 1 2).1 (by decide)⟩,
   ⟨by decide, (c1_grid_count 30 (-97) 1 1 0).2 (by decide)⟩⟩

theorem filterMap_isSome_length (outcomes : List RankedOutcome) :
    (outcomes.filterMap (fun o => o.targetRank)).length =
      (outcomes.filter (fun o => o.targetRank.isSome)).length := by
  induction outcomes with
  | nil => rfl
  | cons o l ih =>
    cases h : o.targetRank with
    | none => simp [List.filterMap_cons, List.filter_cons, h, ih]
    | some k => simp [List.filterMap_cons, List.filter_cons, h, ih]

/-- C4: `summarize` counts every outcome in `totalPoints`, counts outcomes
with non-null `targetRank` in `foundCount`, reports the arithmetic mean of
the found ranks (null exactly when nothing was found), and on empty input
returns all zeros/nulls without error. -/
theorem c4_summarize (outcomes : List RankedOutcome) :
    (summarize outcomes).totalPoints = outcomes.length ∧
    (summarize outcomes).foundCount =
      (outcomes.filter (fun o => o.targetRank.isSome)).length ∧
    ((summarize outcomes).averageRankWhereFound = none ↔
      (summarize outcomes).foundCount = 0) ∧
    (∀ q, (summarize outcomes).averageRankWhereFound = some q →
      q * (summarize outcomes).foundCount =
        ((outcomes.filterMap (fun o => o.targetRank)).map (fun k : ℕ => (k : ℚ))).sum) ∧
    summarize ([] : List RankedOutcome) = ⟨0, 0, 0, 0, none⟩ := by
  refine ⟨rfl, filterMap_isSome_length outcomes, ?_, ?_, rfl⟩
  · show (if (foundRanks outcomes).length = 0 then none else some _) = none ↔
      (foundRanks outcomes).length = 0
    split
    · rename_i h; simpa using h
    · rename_i h; simpa using h
  · intro q hq
    replace hq : (if (foundRanks outcomes).length = 0 then none
        else some (((foundRanks outcomes).map (fun k : ℕ => (k : ℚ))).sum /
          (foundRanks outcomes).length)) = some q := hq
    show q * ((foundRanks outcomes).length : ℚ) =
      ((foundRanks outcomes).map (fun k : ℕ => (k : ℚ))).sum
    by_cases h0 : (foundRanks outcomes).length = 0
    · rw [if_pos h0] at hq
      simp at hq
    · rw [if_neg h0] at hq
      simp only [Option.some.injEq] at hq
      subst hq
      rw [div_mul_cancel₀]
      exact Nat.cast_ne_zero.mpr h0

theorem c4_summarize_witness :
    ((summarize [notFoundOutcome]).averageRankWhereFound = none ↔
      (summarize [notFoundOutcome]).foundCount = 0) ∧
    (summarize [notFoundOutcome]).foundCount = 0 ∧
    (summarize [notFoundOutcome]).totalPoints = 1 :=
  ⟨(c4_summarize [notFoundOutcome]).2.2.1, by decide, by decide⟩

/-- Requests issued by `fetchFrom` never exceed the remaining page budget. -/
theorem fetchFrom_requests_le (provider : ℕ → Except ErrorKind Page) :
    ∀ (remaining pageNo : ℕ) (acc : List SearchResultRecord) (requests : ℕ)
      (delays : List ℕ),
      (fetchFrom provider acc requests delays pageNo remaining).requests ≤
        requests + remaining
  | 0, _, _, _, _ => by simp [fetchFrom]
  | remaining + 1, pageNo, acc, requests, delays => by
    unfold fetchFrom
    cases provider pageNo with
    | error e => simp
    | ok page =>
      dsimp only
      by_cases h : page.nextToken ∧ remaining ≠ 0
      · rw [if_pos h]
        have := fetchFrom_requests_le provider remaining (pageNo + 1)
          (acc ++ page.records) (requests + 1) (delays ++ [pageDelaySeconds])
        omega
      · rw [if_neg h]
        simp

/-- When at least one page may still be requested, at least one request is
issued. -/
theorem fetchFrom_requests_ge (provider : ℕ → Except ErrorKind Page) :
    ∀ (remaining pageNo : ℕ) (acc : List SearchResultRecord) (requests : ℕ)
      (delays : List ℕ), remaining ≠ 0 →
      requests + 1 ≤ (fetchFrom provider acc requests delays pageNo remaining).requests
  | 0, _, _, _, _ => by omega
  | remaining + 1, pageNo, acc, requests, delays => by
    intro _
    unfold fetchFrom
    cases provider pageNo with
    | error e => simp
    | ok page =>
      dsimp only
      by_cases h : page.nextToken ∧ remaining ≠ 0
      · rw [if_pos h]
        have := fetchFrom_requests_ge provider remaining (pageNo + 1)
          (acc ++ page.records) (requests + 1) (delays ++ [pageDelaySeconds]) h.2
        omega
      · rw [if_neg h]

/-- Each continuation request of `fetchFrom` is preceded by exactly one fixed
delay: the delay list always holds one `pageDelaySeconds` entry per request
beyond the first. -/
theorem fetchFrom_delays (provider : ℕ → Except ErrorKind Page) :
    ∀ (remaining pageNo : ℕ) (acc : List SearchResultRecord) (requests : ℕ)
      (delays : List ℕ),
      (fetchFrom provider acc requests delays pageNo remaining).delays =
        delays ++ List.replicate
          ((fetchFrom provider acc requests delays pageNo remaining).requests -
            requests - (if remaining = 0 then 0 else 1)) pageDelaySeconds
  | 0, _, _, _, _ => by simp [fetchFrom]
  | remaining + 1, pageNo, acc, requests, delays => by
    unfold fetchFrom
    cases provider pageNo with
    | error e => simp
    | ok page =>
      dsimp only
      by_cases h : page.nextToken ∧ remaining ≠ 0
      · rw [if_pos h]
        have hge : requests + 1 + 1 ≤
            (fetchFrom provider (acc ++ page.records) (requests + 1)
              (delays ++ [pageDelaySeconds]) (pageNo + 1) remaining).requests :=
          fetchFrom_requests_ge provider remaining (pageNo + 1)
            (acc ++ page.records) (requests + 1) (delays ++ [pageDelaySeconds]) h.2
        rw [fetchFrom_delays provider remaining (pageNo + 1)
          (acc ++ page.records) (requests + 1) (delays ++ [pageDelaySeconds])]
        rw [if_neg h.2, if_neg (by omega : ¬remaining + 1 = 0), List.append_assoc]
        congr 1
        rw [List.singleton_append, ← List.replicate_succ]
        congr 1
        omega
      · rw [if_neg h]
        simp

/-- C5: at most 3 page requests per coordinate; a fixed 2-second delay before
each continuation request; stopping as soon as no continuation token is
returned; in the spec's scenario (token on page 1, none on page 2) exactly 2
requests and exactly one delay are made. -/
theorem c5_pagination (provider : ℕ → Except ErrorKind Page) :
    (fetchNearby provider).requests ≤ maxPages ∧
    (fetchNearby provider).delays =
      List.replicate ((fetchNearby provider).requests - 1) pageDelaySeconds ∧
    (∀ page1, provider 1 = .ok page1 → page1.nextToken = false →
      (fetchNearby provider).requests = 1) ∧
    (fetchNearby stubTokenOnPage1).requests = 2 ∧
    (fetchNearby stubTokenOnPage1).delays = [pageDelaySeconds] := by
  refine ⟨?_, ?_, ?_, by decide, by decide⟩
  · simpa using fetchFrom_requests_le provider maxPages 1 [] 0 []
  · have h := fetchFrom_delays provider maxPages 1 [] 0 []
    simpa [fetchNearby, maxPages] using h
  · intro page1 h1 htok
    show (fetchFrom provider [] 0 [] 1 maxPages).requests = 1
    rw [show maxPages = 2 + 1 from rfl]
    unfold fetchFrom
    rw [h1]
    simp [htok]

theorem c5_pagination_witness :
    (fetchNearby (fun _ => .ok ⟨[], false⟩)).requests = 1 :=
  (c5_pagination (fun _ => .ok ⟨[], false⟩)).2.2.1 ⟨[], false⟩ rfl rfl

/-- C6: a provider failure during one coordinate's pagination aborts only
that coordinate's loop, keeping the partial records already gathered and
surfacing the failure as an error value; point-level errors never escalate —
for a positive radius `scan` returns `.ok` with one outcome per grid point
whatever the provider does, and only invalid input is scan-fatal. -/
theorem c6_error_isolation (provider : ℕ → Except ErrorKind Page) :
    (∀ page1 e, provider 1 = .ok page1 → page1.nextToken = true →
      provider 2 = .error e →
      fetchNearby provider =
        ⟨page1.records, some e, 2, [pageDelaySeconds]⟩) ∧
    (∀ (centerLat centerLon radiusMiles cosCenterLat : ℚ) (gridSize : ℤ)
      (sub : String) (providerAt : Coordinate → ℕ → Except ErrorKind Page),
      0 < radiusMiles →
      scan centerLat centerLon radiusMiles cosCenterLat gridSize sub
          providerAt =
        .ok ((generateGrid centerLat centerLon radiusMiles cosCenterLat
            gridSize).map fun c =>
          let fr := fetchNearby (providerAt c)
          match fr.error with
          | some e => ⟨c, none, [], none, some e⟩
          | none =>
            let rr := rankAndLocate fr.records sub
            ⟨c, rr.targetRank, rr.topCompetitors, rr.targetRecord, none⟩)) ∧
    (∀ (centerLat centerLon radiusMiles cosCenterLat : ℚ) (gridSize : ℤ)
      (sub : String) (providerAt : Coordinate → ℕ → Except ErrorKind Page),
      radiusMiles ≤ 0 →
      scan centerLat centerLon radiusMiles cosCenterLat gridSize sub
          providerAt = .error .InvalidInput) := by
  refine ⟨?_, ?_, ?_⟩
  · intro page1 e h1 htok h2
    show fetchFrom provider [] 0 [] 1 maxPages = _
    rw [show maxPages = 2 + 1 from rfl]
    unfold fetchFrom
    rw [h1]
    dsimp only
    rw [if_pos ⟨htok, by omega⟩]
    rw [show (2:ℕ) = 1 + 1 from rfl]
    unfold fetchFrom
    have h2' : provider (1 + 1) = Except.error e := h2
    rw [h2']
    simp [pageDelaySeconds]
  · intro centerLat centerLon radiusMiles cosCenterLat gridSize sub providerAt hr
    unfold scan
    rw [if_neg (by exact not_le.mpr hr)]
  · intro centerLat centerLon radiusMiles cosCenterLat gridSize sub providerAt hr
    unfold scan
    rw [if_pos hr]

theorem c6_error_isolation_witness :
    fetchNearby stubFailPage2 =
      ⟨demoRecords, some ErrorKind.TransportError, 2, [pageDelaySeconds]⟩ ∧
    scan 30 (-97) 1 1 2 "beta" (fun _ => stubFailPage2) =
      .ok ((generateGrid 30 (-97) 1 1 2).map fun c =>
        let fr := fetchNearby stubFailPage2
        match fr.error with
        | some e => ⟨c, none, [], none, some e⟩
        | none =>
          let rr := rankAndLocate fr.records "beta"
          ⟨c, rr.targetRank, rr.topCompetitors, rr.targetRecord, none⟩) ∧
    scan 30 (-97) 0 1 2 "beta" (fun _ => stubFailPage2) =
      .error ErrorKind.InvalidInput :=
  ⟨(c6_error_isolation stubFailPage2).1 ⟨demoRecords, true⟩
      ErrorKind.TransportError rfl rfl rfl,
   (c6_error_isolation stubFailPage2).2.1 30 (-97) 1 1 2 "beta"
      (fun _ => stubFailPage2) (by norm_num),
   (c6_error_isolation stubFailPage2).2.2 30 (-97) 0 1 2 "beta"
      (fun _ => stubFailPage2) (by norm_num)⟩

/-- C7: re-ranking an already-sorted list returns the same order, and
`rankAndLocate` on the sorted list agrees with `rankAndLocate` on the
original list. -/
theorem c7_rank_idempotent (records : List SearchResultRecord) (sub : String) :
    sortRecords (sortRecords records) = sortRecords records ∧
    rankAndLocate (sortRecords records) sub = rankAndLocate records sub := by
  have hs : sortRecords (sortRecords records) = sortRecords records :=
    (List.sorted_insertionSort recLE records).insertionSort_eq
  exact ⟨hs, by unfold rankAndLocate; rw [hs]⟩

/-- C8 counterexample: a `templates.json` holding `{"templates": 5}` makes
`load_templates` return the number 5, which is not a list — so the claim
that `load_templates` always returns a list is false on the code. -/
theorem c8_counterexample :
    load_templates (.parsed (.obj [("templates", .num 5)])) = .num 5 ∧
    ¬ ∃ l, load_templates (.parsed (.obj [("templates", .num 5)])) = .arr l := by
  refine ⟨rfl, ?_⟩
  rintro ⟨l, h⟩
  rw [show load_templates (.parsed (.obj [("templates", .num 5)])) = .num 5
    from rfl] at h
  cases h

/-- C8 (amended): `load_templates` never raises past its boundary (it is a
total function of the file-read outcome); it returns `data["templates"]`
(whatever JSON value that is — not necessarily a list) when the file parses
to a dict containing the key `"templates"`, the parsed list when the file
parses to a top-level list, and the empty list when the file is missing,
unreadable, a dict without the key, or any other JSON shape. -/
theorem c8_load_templates :
    (∀ fields v, fields.lookup "templates" = some v →
      load_templates (.parsed (.obj fields)) = v) ∧
    (∀ fields, fields.lookup "templates" = none →
      load_templates (.parsed (.obj fields)) = .arr []) ∧
    (∀ items, load_templates (.parsed (.arr items)) = .arr items) ∧
    load_templates .missing = .arr [] ∧
    load_templates .unreadable = .arr [] ∧
    load_templates (.parsed .null) = .arr [] ∧
    (∀ b, load_templates (.parsed (.bool b)) = .arr []) ∧
    (∀ n, load_templates (.parsed (.num n)) = .arr []) ∧
    (∀ s, load_templates (.parsed (.str s)) = .arr []) := by
  refine ⟨?_, ?_, fun _ => rfl, rfl, rfl, rfl, fun _ => rfl, fun _ => rfl,
    fun _ => rfl⟩
  · intro fields v h
    show (match fields.lookup "templates" with
      | some v => v
      | none => Json.arr []) = v
    rw [h]
  · intro fields h
    show (match fields.lookup "templates" with
      | some v => v
      | none => Json.arr []) = Json.arr []
    rw [h]

theorem c8_load_templates_witness :
    load_templates (.parsed (.obj [("templates", .arr [.str "t1"])])) =
      .arr [.str "t1"] ∧
    load_templates (.parsed (.obj [("other", .num 1)])) = .arr [] :=
  ⟨c8_load_templates.1 [("templates", .arr [.str "t1"])] (.arr [.str "t1"]) rfl,
   c8_load_templates.2.1 [("other", .num 1)] rfl⟩

theorem callLoop_attempts_ge (api : ℕ → ApiAttemptResult) (mr : ℕ) :
    ∀ (n attempt : ℕ) (sleeps : List ℕ), mr - attempt ≤ n →
      attempt ≤ (callLoop api mr attempt sleeps).attempts ∧
      (attempt < mr → attempt + 1 ≤ (callLoop api mr attempt sleeps).attempts) := by
  intro n
  induction n with
  | zero =>
    intro attempt sleeps hn
    rw [callLoop]
    rw [dif_neg (by omega)]
    exact ⟨le_refl _, by omega⟩
  | succ n ih =>
    intro attempt sleeps hn
    rw [callLoop]
    by_cases h : attempt < mr
    · rw [dif_pos h]
      cases hapi : api attempt with
      | success content => exact ⟨by simp, fun _ => by simp⟩
      | rateLimitError =>
        dsimp only
        have := (ih (attempt + 1) (sleeps ++ [2 ^ attempt]) (by omega)).1
        exact ⟨by omega, fun _ => this⟩
      | apiError msg =>
        dsimp only
        by_cases hq : containsSub msg "insufficient_quota"
        · rw [if_pos hq]; exact ⟨by simp, fun _ => by simp⟩
        · rw [if_neg hq]
          by_cases hl : attempt = mr - 1
          · rw [if_pos hl]; exact ⟨by simp, fun _ => by simp⟩
          · rw [if_neg hl]
            have := (ih (attempt + 1) sleeps (by omega)).1
            exact ⟨by omega, fun _ => this⟩

    · rw [dif_neg h]
      exact ⟨le_refl _, by omega⟩

theorem callLoop_attempts_le (api : ℕ → ApiAttemptResult) (mr : ℕ) :
    ∀ (n attempt : ℕ) (sleeps : List ℕ), mr - attempt ≤ n → attempt ≤ mr →
      (callLoop api mr attempt sleeps).attempts ≤ mr := by
  intro n
  induction n with
  | zero =>
    intro attempt sleeps hn ha
    rw [callLoop]
    rw [dif_neg (by omega)]
    exact ha
  | succ n ih =>
    intro attempt sleeps hn ha
    rw [callLoop]
    by_cases h : attempt < mr
    · rw [dif_pos h]
      cases hapi : api attempt with
      | success content => simpa using h
      | rateLimitError =>
        exact ih (attempt + 1) (sleeps ++ [2 ^ attempt]) (by omega) (by omega)
      | apiError msg =>
        dsimp only
        by_cases hq : containsSub msg "insufficient_quota"
        · rw [if_pos hq]; simpa using h
        · rw [if_neg hq]
          by_cases hl : attempt = mr - 1
          · rw [if_pos hl]; simpa using h
          · rw [if_neg hl]
            exact ih (attempt + 1) sleeps (by omega) (by omega)
    · rw [dif_neg h]
      exact ha

theorem callLoop_sleeps (api : ℕ → ApiAttemptResult) (mr : ℕ) :
    ∀ (n attempt : ℕ) (sleeps : List ℕ), mr - attempt ≤ n →
      (callLoop api mr attempt sleeps).sleeps = sleeps ++
        ((List.range' attempt
            ((callLoop api mr attempt sleeps).attempts - attempt)).filter
          (fun i => decide (api i = .rateLimitError))).map (fun i => 2 ^ i) := by
  intro n
  induction n with
  | zero =>
    intro attempt sleeps hn
    rw [callLoop]
    rw [dif_neg (by omega)]
    simp
  | succ n ih =>
    intro attempt sleeps hn
    rw [callLoop]
    by_cases h : attempt < mr
    · rw [dif_pos h]
      cases hapi : api attempt with
      | success content => simp [hapi]
      | rateLimitError =>
        have hge := ((callLoop_attempts_ge api mr n (attempt + 1)
          (sleeps ++ [2 ^ attempt]) (by omega)).1)
        rw [ih (attempt + 1) (sleeps ++ [2 ^ attempt]) (by omega)]
        rw [show (callLoop api mr (attempt + 1) (sleeps ++ [2 ^ attempt])).attempts
              - attempt =
            ((callLoop api mr (attempt + 1) (sleeps ++ [2 ^ attempt])).attempts
              - (attempt + 1)) + 1 by omega]
        rw [List.range'_succ]
        rw [List.filter_cons]
        rw [if_pos (by simp [hapi])]
        simp
      | apiError msg =>
        dsimp only
        by_cases hq : containsSub msg "insufficient_quota"
        · rw [if_pos hq]; simp [hapi]
        · rw [if_neg hq]
          by_cases hl : attempt = mr - 1
          · rw [if_pos hl]; simp [hapi]
          · rw [if_neg hl]
            have hge := ((callLoop_attempts_ge api mr n (attempt + 1)
              sleeps (by omega)).1)
            rw [ih (attempt + 1) sleeps (by omega)]
            rw [show (callLoop api mr (attempt + 1) sleeps).attempts - attempt =
                ((callLoop api mr (attempt + 1) sleeps).attempts
                  - (attempt + 1)) + 1 by omega]
            rw [List.range'_succ]
            rw [List.filter_cons]
            rw [if_neg (by simp [hapi])]
    · rw [dif_neg h]
      simp

theorem callLoop_all_fail (api : ℕ → ApiAttemptResult) (mr : ℕ)
    (hfail : ∀ i, i < mr → ∀ c, api i ≠ .success c) :
    ∀ (n attempt : ℕ) (sleeps : List ℕ), mr - attempt ≤ n →
      (callLoop api mr attempt sleeps).result = "" := by
  intro n
  induction n with
  | zero =>
    intro attempt sleeps hn
    rw [callLoop]
    rw [dif_neg (by omega)]
  | succ n ih =>
    intro attempt sleeps hn
    rw [callLoop]
    by_cases h : attempt < mr
    · rw [dif_pos h]
      cases hapi : api attempt with
      | success content => exact absurd hapi (hfail attempt h content)
      | rateLimitError => exact ih (attempt + 1) (sleeps ++ [2 ^ attempt]) (by omega)
      | apiError msg =>
        dsimp only
        by_cases hq : containsSub msg "insufficient_quota"
        · rw [if_pos hq]
        · rw [if_neg hq]
          by_cases hl : attempt = mr - 1
          · rw [if_pos hl]
          · rw [if_neg hl]
            exact ih (attempt + 1) sleeps (by omega)
    · rw [dif_neg h]

/-- C9: `call_openai_chat` always returns a string (the model is a total
function, never an escaping exception); an `OpenAIError` whose message
contains `"insufficient_quota"` on the first attempt returns `""` at once,
after exactly one attempt and no sleeping; at most `max_retries` attempts are
ever made; each rate-limited attempt `i` contributes exactly one `2 ^ i`
sleep, in order; and if no attempt succeeds the result is `""`. -/
theorem c9_call_openai_chat (api : ℕ → ApiAttemptResult) (max_retries : ℕ) :
    (∀ msg, 0 < max_retries → api 0 = .apiError msg →
      containsSub msg "insufficient_quota" = true →
      call_openai_chat api max_retries = ⟨"", 1, []⟩) ∧
    (call_openai_chat api max_retries).attempts ≤ max_retries ∧
    (call_openai_chat api max_retries).sleeps =
      ((List.range (call_openai_chat api max_retries).attempts).filter
        (fun i => decide (api i = .rateLimitError))).map (fun i => 2 ^ i) ∧
    ((∀ i, i < max_retries → ∀ c, api i ≠ .success c) →
      (call_openai_chat api max_retries).result = "") := by
  refine ⟨?_, ?_, ?_, ?_⟩
  · intro msg h0 hapi hq
    show callLoop api max_retries 0 [] = _
    rw [callLoop]
    rw [dif_pos h0, hapi]
    dsimp only
    rw [if_pos hq]
  · exact callLoop_attempts_le api max_retries max_retries 0 [] (by omega) (by omega)
  · have h := callLoop_sleeps api max_retries max_retries 0 [] (by omega)
    show (callLoop api max_retries 0 []).sleeps =
      ((List.range (callLoop api max_retries 0 []).attempts).filter
        (fun i => decide (api i = .rateLimitError))).map (fun i => 2 ^ i)
    rw [List.range_eq_range']
    simpa using h
  · intro hfail
    exact callLoop_all_fail api max_retries hfail max_retries 0 [] (by omega)

theorem c9_call_openai_chat_witness :
    call_openai_chat (fun _ => .apiError "insufficient_quota: limit") 3 =
      ⟨"", 1, []⟩ ∧
    (call_openai_chat stubApiAllFail 3).result = "" ∧
    (call_openai_chat stubApiAllFail 3).sleeps =
      ((List.range (call_openai_chat stubApiAllFail 3).attempts).filter
        (fun i => decide (stubApiAllFail i = .rateLimitError))).map
        (fun i => 2 ^ i) :=
  ⟨(c9_call_openai_chat (fun _ => .apiError "insufficient_quota: limit") 3).1
      "insufficient_quota: limit" (by omega) rfl (by decide),
   (c9_call_openai_chat stubApiAllFail 3).2.2.2
      (by intro i hi c h; revert h; interval_cases i <;> simp [stubApiAllFail]),
   (c9_call_openai_chat stubApiAllFail 3).2.2.1⟩

theorem postLoop_calls_le (flesch : String → ℚ) (target : ℚ)
    (refine : ℕ → String) :
    ∀ (remaining calls : ℕ) (content : String),
      (postLoop flesch target refine remaining calls content).2 ≤
        calls + remaining
  | 0, calls, content => by simp [postLoop]
  | remaining + 1, calls, content => by
    unfold postLoop
    by_cases h : flesch content < target
    · rw [if_pos h]
      by_cases hr : refine calls = ""
      · rw [if_pos hr]; simp
      · rw [if_neg hr]
        have := postLoop_calls_le flesch target refine remaining (calls + 1)
          (refine calls)
        omega
    · rw [if_neg h]; simp

theorem postLoop_ne_empty (flesch : String → ℚ) (target : ℚ)
    (refine : ℕ → String) :
    ∀ (remaining calls : ℕ) (content : String), content ≠ "" →
      (postLoop flesch target refine remaining calls content).1 ≠ ""
  | 0, calls, content => by simp [postLoop]
  | remaining + 1, calls, content => by
    intro hc
    unfold postLoop
    by_cases h : flesch content < target
    · rw [if_pos h]
      by_cases hr : refine calls = ""
      · rw [if_pos hr]; simpa using hc
      · rw [if_neg hr]
        exact postLoop_ne_empty flesch target refine remaining (calls + 1)
          (refine calls) hr
    · rw [if_neg h]; simpa using hc

/-- C10: the refinement API is called at most `max_tries_for_reading` times;
with `textstat` unavailable or a non-positive reading-ease target the initial
content is returned unchanged with no refinement call; and the result is the
empty string exactly when the initial generation returned the empty string. -/
theorem c10_post_checks (textstatAvailable : Bool) (flesch : String → ℚ)
    (reading_ease_target : ℚ) (refine : ℕ → String)
    (max_tries_for_reading : ℕ) (initial : String) :
    (generate_content_with_post_checks textstatAvailable flesch
        reading_ease_target refine max_tries_for_reading initial).2 ≤
      max_tries_for_reading ∧
    (¬(textstatAvailable = true ∧ 0 < reading_ease_target) →
      generate_content_with_post_checks textstatAvailable flesch
        reading_ease_target refine max_tries_for_reading initial =
        (initial, 0)) ∧
    ((generate_content_with_post_checks textstatAvailable flesch
        reading_ease_target refine max_tries_for_reading initial).1 = "" ↔
      initial = "") := by
  unfold generate_content_with_post_checks
  by_cases h0 : initial = ""
  · rw [if_pos h0]
    exact ⟨by simp, fun _ => by simp [h0], by simpa using h0⟩
  · rw [if_neg h0]
    by_cases h1 : textstatAvailable = true ∧ 0 < reading_ease_target
    · rw [if_pos h1]
      refine ⟨?_, fun hn => absurd h1 hn, ?_⟩
      · simpa using postLoop_calls_le flesch reading_ease_target refine
          max_tries_for_reading 0 initial
      · constructor
        · intro hcon
          exact absurd hcon (postLoop_ne_empty flesch reading_ease_target
            refine max_tries_for_reading 0 initial h0)
        · intro hcon; exact absurd hcon h0
    · rw [if_neg h1]
      exact ⟨by simp, fun _ => rfl, by simp [h0]⟩

theorem c10_post_checks_witness :
    generate_content_with_post_checks false (fun _ => 50) 60 (fun _ => "simple")
        2 "hard medical text" = ("hard medical text", 0) ∧
    (generate_content_with_post_checks true (fun _ => 50) 60
        (fun _ => "simple") 2 "hard medical text").2 ≤ 2 ∧
    ((generate_content_with_post_checks true (fun _ => 50) 60
        (fun _ => "simple") 2 "hard medical text").1 = "" ↔
      ("hard medical text" : String) = "") :=
  ⟨(c10_post_checks false (fun _ => 50) 60 (fun _ => "simple") 2
      "hard medical text").2.1 (by simp),
   (c10_post_checks true (fun _ => 50) 60 (fun _ => "simple") 2
      "hard medical text").1,
   (c10_post_checks true (fun _ => 50) 60 (fun _ => "simple") 2
      "hard medical text").2.2⟩

end ArticleGen
